import Mathlib

/-!
Network_Monitor: sample store, mode selector, LED duty and auto-scale

A shallow embedding of `src/main.cpp` (ESP32 network-throughput display).

* Unsigned machine integers are natural numbers; 32-bit and 8-bit wrap-around is
  written out with `% U32` and `% 256` where the source's arithmetic can wrap.
* The two `float` scales are rationals: the arithmetic on them is the exact
  arithmetic of the source's formulas, without binary32 rounding.
* The fixed array `ring[MAX_SAMPLES]` is a list; a read outside the array gives `none`.
* The raster calls on `tft` and the serial log are outside the modelled state.
* `buttonISR` and `loop` are modelled as separate steps on the same statics; an
  interrupt in the middle of a `loop` invocation is not modelled.
-/

namespace NetworkMonitor

/-! ## Sample store -/

/-- Capacity of the ring, `MAX_SAMPLES` in the source. -/
def MAX_SAMPLES : Nat := 128

/-- One observation, `struct Sample { uint32_t rx, tx; }`. -/
structure Sample where
  rx : Nat
  tx : Nat
deriving DecidableEq, Repr

/-- The three statics `ring`, `head`, `count`. -/
structure Store where
  ring : List Sample
  head : Nat
  count : Nat
deriving DecidableEq, Repr

/-- Statics at process start: a zero-filled array, `head = 0`, `count = 0`. -/
def emptyStore : Store :=
  { ring := List.replicate MAX_SAMPLES ⟨0, 0⟩, head := 0, count := 0 }

/-- Source `addSample`: write at `head`, advance `head` modulo the capacity,
bump `count` while it is below the capacity. -/
def addSample (s : Store) (rx tx : Nat) : Store :=
  { ring := s.ring.set s.head ⟨rx, tx⟩
    head := (s.head + 1) % MAX_SAMPLES
    count := if s.count < MAX_SAMPLES then s.count + 1 else s.count }

/-- Source `getSample`: `idx = int(head) - 1 - i`, plus the capacity when negative,
then `ring[idx]`; `none` when `idx` lies outside the array. -/
def getSample (s : Store) (i : Nat) : Option Sample :=
  let idx : Int := (s.head : Int) - 1 - (i : Int)
  let idx : Int := if idx < 0 then idx + (MAX_SAMPLES : Int) else idx
  if 0 ≤ idx then s.ring[idx.toNat]? else none

/-- A run of `addSample` calls, oldest first. -/
def pushAll (s : Store) (xs : List Sample) : Store :=
  xs.foldl (fun acc x => addSample acc x.rx x.tx) s

/-! ## Mode selector -/

/-- Source `enum DisplayMode : uint8_t`. -/
inductive DisplayMode where
  | MODE_GRAPH
  | MODE_CLIENTS
  | MODE_INFO
deriving DecidableEq, Repr

/-- Underlying value of an enumerator. -/
def DisplayMode.toNat : DisplayMode → Nat
  | .MODE_GRAPH => 0
  | .MODE_CLIENTS => 1
  | .MODE_INFO => 2

/-- The cast `DisplayMode(v)`; it is only ever applied to a value below 3. -/
def DisplayMode.fromNat : Nat → DisplayMode
  | 0 => .MODE_GRAPH
  | 1 => .MODE_CLIENTS
  | _ => .MODE_INFO

/-- The cycle GRAPH → CLIENTS → INFO → GRAPH as the specification words it. -/
def cycleNext : DisplayMode → DisplayMode
  | .MODE_GRAPH => .MODE_CLIENTS
  | .MODE_CLIENTS => .MODE_INFO
  | .MODE_INFO => .MODE_GRAPH

/-- Number of values of a `uint32_t`. -/
def U32 : Nat := 4294967296

/-- Subtraction of two `uint32_t` values, `a - b` modulo `2^32`. -/
def sub32 (a b : Nat) : Nat := (a % U32 + U32 - b % U32) % U32

/-! ## PWM channel -/

/-- The three fields of LEDC high-speed channel 0 that `pwm_set_duty` touches:
`conf0.sig_out_en`, `duty.duty`, `conf1.duty_start`. -/
structure LedcChannel where
  sig_out_en : Nat
  duty : Nat
  duty_start : Nat
deriving DecidableEq, Repr

/-- Source `pwm_set_duty`; `duty` is the `uint8_t` argument. -/
def pwm_set_duty (duty : Nat) (ch : LedcChannel) : LedcChannel :=
  if duty ≠ 0 then
    { sig_out_en := 1, duty := duty <<< 4, duty_start := 1 }
  else
    { ch with sig_out_en := 0, duty_start := 0 }

/-! ## LED load indicator -/

/-- The duty expression of `updateLED` for a given `full`:
`(rx + tx >= full) ? 255 : (rx + tx) * 255 / full`, evaluated in `uint32_t`
and then stored in a `uint8_t`. -/
def ledDuty (rx tx full : Nat) : Nat :=
  let sum := (rx + tx) % U32
  (if sum ≥ full then 255 else (sum * 255) % U32 / full) % 256

/-- The conversion `uint32_t(max(yScaleRX, yScaleTX) * 1000000)`: truncation of a
non-negative value. The source leaves the conversion undefined for a value that
does not fit 32 bits or is negative; here the first is kept as it is and the
second gives 0. -/
def fullScale (sRX sTX : ℚ) : Nat :=
  ⌊max sRX sTX * 1000000⌋₊

/-! ## Auto-scale -/

/-- Source constant `yMin = 0.1f`. -/
def yMin : ℚ := 1 / 10

/-- Source constant `yPad = 1.2f`. -/
def yPad : ℚ := 12 / 10

/-- Source constant `yAlpha = 0.15f`. -/
def yAlpha : ℚ := 15 / 100

/-- The ceiling aimed at, `max(yMin, peak / 1000000.0f * yPad)`. -/
def scaleTarget (peak : Nat) : ℚ := max yMin ((peak : ℚ) / 1000000 * yPad)

/-- One update `yScale += yAlpha * (max(yMin, peak / 1000000.0f * yPad) - yScale)`. -/
def scaleStep (scale : ℚ) (peak : Nat) : ℚ :=
  scale + yAlpha * (scaleTarget peak - scale)

/-- The peak scan of `drawDual`: both peaks start at 1 and the loop runs over
`i = 0 .. count - 1`, reading `getSample(i)`. -/
def peaks (s : Store) : Option (Nat × Nat) :=
  (List.range s.count).foldlM
    (fun (p : Nat × Nat) i =>
      (getSample s i).map fun x => (max p.1 x.rx, max p.2 x.tx))
    (1, 1)

/-! ## Program state and the main loop -/

/-- Source `client_t`. -/
structure Client where
  ip : String
  mac : String
deriving DecidableEq, Repr

/-- The statics of the program: the sample store, the two scales, the mode, the
`last` of `buttonISR`, the roster `clients[MAX_CLIENTS]` of `loop`, and the LEDC
channel fields. -/
structure State where
  store : Store
  yScaleRX : ℚ
  yScaleTX : ℚ
  currentMode : DisplayMode
  last : Nat
  clients : List Client
  ch : LedcChannel
deriving DecidableEq

/-- Roster size, `MAX_CLIENTS` in the source. -/
def MAX_CLIENTS : Nat := 4

/-- Statics at process start. -/
def initState : State :=
  { store := emptyStore
    yScaleRX := 1
    yScaleTX := 1
    currentMode := .MODE_GRAPH
    last := 0
    clients := List.replicate MAX_CLIENTS ⟨"", ""⟩
    ch := ⟨0, 0, 0⟩ }

/-- Source `buttonISR`; `now` is the reading of `millis()`. -/
def buttonISR (st : State) (now : Nat) : State :=
  let now := now % U32
  if sub32 now st.last > 250 then
    { st with
      currentMode := DisplayMode.fromNat ((st.currentMode.toNat + 1) % 3)
      last := now }
  else st

/-- Source `updateLED`. -/
def updateLED (st : State) (rx tx : Nat) : State :=
  let full := fullScale st.yScaleRX st.yScaleTX
  { st with ch := pwm_set_duty (ledDuty rx tx full) st.ch }

/-- Source `drawDual`, as far as it changes the statics: the peak scan and the two
scale updates. `none` when the scan reads outside `ring`. -/
def drawDual (st : State) : Option State :=
  match peaks st.store with
  | none => none
  | some (peakRX, peakTX) =>
    some { st with
      yScaleRX := scaleStep st.yScaleRX peakRX
      yScaleTX := scaleStep st.yScaleTX peakTX }

/-- The decoded JSON document of one datagram, fields as `loop` reads them. -/
structure Payload where
  rx : Nat
  tx : Nat
  clients : List String
  macs : List String
  temp : ℚ
  uplink_rssi : ℚ
  mem_avail_MB : Nat
deriving DecidableEq

/-- What `loop` finds on the socket: nothing, bytes that do not decode, or a
document. -/
inductive Datagram where
  | absent
  | undecodable
  | decoded (p : Payload)
deriving DecidableEq

/-- The copy loop `clients[i].ip = ...; clients[i].mac = ...` for `i < n`. -/
def storeClients (roster : List Client) (ips macs : List String) (n : Nat) : List Client :=
  (List.range n).foldl
    (fun acc i => acc.set i ⟨ips.getD i "", macs.getD i ""⟩) roster

/-- Source `loop`, one invocation. `drawClients` and `drawInfo` only draw. -/
def loop (st : State) : Datagram → Option State
  | .absent => some st
  | .undecodable => some st
  | .decoded p =>
    if p.clients.length ≠ p.macs.length then some st
    else
      let clients_count := min p.clients.length MAX_CLIENTS
      let st := { st with clients := storeClients st.clients p.clients p.macs clients_count }
      let st := { st with store := addSample st.store p.rx p.tx }
      let st := updateLED st p.rx p.tx
      match st.currentMode with
      | .MODE_GRAPH => drawDual st
      | .MODE_CLIENTS => some st
      | .MODE_INFO => some st

/-- What the store looks like after the pushes `xs`, started from `emptyStore`. -/
structure StoreInv (xs : List Sample) (s : Store) : Prop where
  len : s.ring.length = 128
  head_eq : s.head = xs.length % 128
  count_eq : s.count = min xs.length 128
  cell : ∀ k, k < xs.length → xs.length ≤ k + 128 → s.ring[k % 128]? = xs[k]?

/-- A store whose array has its 128 cells, whose cursor points into it and whose
count is within the capacity. -/
structure StoreWF (s : Store) : Prop where
  len : s.ring.length = 128
  head_lt : s.head < 128
  count_le : s.count ≤ 128

/-- The scale after `n` updates in a row against the same peak. -/
def scaleRun (scale : ℚ) (peak : Nat) : Nat → ℚ
  | 0 => scale
  | n + 1 => scaleStep (scaleRun scale peak n) peak

/-- A run of `loop` invocations, one per datagram, oldest first. -/
def runLoop (st : State) (ds : List Datagram) : Option State :=
  ds.foldlM loop st

/-! ## Concrete inputs -/

/-- The pushes `(0,0), (1,2), (2,4), ..., (128,256)`: 129 samples. -/
def run129 : List Sample := (List.range 129).map fun k => ⟨k, 2 * k⟩

/-- Statics with the mode at GRAPH and the last accepted edge at 1000 ms. -/
def pressedState : State := { initState with last := 1000 }

/-- Statics with the mode at CLIENTS. -/
def clientsState : State := { initState with currentMode := .MODE_CLIENTS }

/-- A document with three addresses and two hardware addresses. -/
def mismatched : Payload :=
  { rx := 2000000, tx := 100000
    clients := ["10.0.0.2", "10.0.0.3", "10.0.0.4"]
    macs := ["aa", "bb"]
    temp := 45, uplink_rssi := -60, mem_avail_MB := 512 }

/-- A document with no clients, 2 Mbps down and 0.1 Mbps up. -/
def plain : Payload :=
  { rx := 2000000, tx := 100000, clients := [], macs := []
    temp := 45, uplink_rssi := -60, mem_avail_MB := 512 }

/-- A document with no clients, 20 Mbps down and nothing up. -/
def steady20 : Payload :=
  { rx := 20000000, tx := 0, clients := [], macs := []
    temp := 45, uplink_rssi := -60, mem_avail_MB := 512 }

/-- A document with no clients, 17 Mbps down and nothing up. -/
def then17 : Payload :=
  { rx := 17000000, tx := 0, clients := [], macs := []
    temp := 45, uplink_rssi := -60, mem_avail_MB := 512 }

/-- A document with no clients whose two bitrates add up to `2^32`. -/
def burst : Payload :=
  { rx := 4294967295, tx := 1, clients := [], macs := []
    temp := 45, uplink_rssi := -60, mem_avail_MB := 512 }

/-! ### Store lemmas -/

theorem pushAll_snoc (s : Store) (xs : List Sample) (x : Sample) :
    pushAll s (xs ++ [x]) = addSample (pushAll s xs) x.rx x.tx := by
  simp [pushAll, List.foldl_append]

theorem storeInv_empty : StoreInv [] emptyStore := by
  refine ⟨by simp [emptyStore, MAX_SAMPLES], by simp [emptyStore],
    by simp [emptyStore], ?_⟩
  intro k hk
  simp at hk

theorem storeInv_push (xs : List Sample) (s : Store) (x : Sample)
    (h : StoreInv xs s) : StoreInv (xs ++ [x]) (addSample s x.rx x.tx) := by
  obtain ⟨hlen, hhead, hcount, hcell⟩ := h
  refine ⟨by simp [addSample, hlen], ?_, ?_, ?_⟩
  · simp [addSample, MAX_SAMPLES, hhead]
  · simp only [addSample, MAX_SAMPLES, hcount, List.length_append, List.length_singleton]
    split <;> omega
  · intro k hk hk2
    simp only [List.length_append, List.length_singleton] at hk hk2
    have hmod : xs.length % 128 < 128 := Nat.mod_lt _ (by decide)
    by_cases hkn : k = xs.length
    · subst hkn
      simp [addSample, hhead, hlen, hmod]
    · have hklt : k < xs.length := by omega
      have hne : xs.length % 128 ≠ k % 128 := by omega
      simp only [addSample, hhead]
      rw [List.getElem?_set_ne hne, hcell k hklt (by omega),
        List.getElem?_append_left hklt]

theorem storeInv_pushAll (xs : List Sample) : StoreInv xs (pushAll emptyStore xs) := by
  induction xs using List.reverseRecOn with
  | nil => exact storeInv_empty
  | append_singleton xs x ih =>
    rw [pushAll_snoc]
    exact storeInv_push xs _ x ih

theorem getSample_of_inv (xs : List Sample) (s : Store) (h : StoreInv xs s)
    (i : Nat) (hi : i < min xs.length 128) :
    getSample s i = xs[xs.length - 1 - i]? := by
  obtain ⟨hlen, hhead, hcount, hcell⟩ := h
  have hi1 : i < xs.length := by omega
  have hi2 : i < 128 := by omega
  rw [← hcell (xs.length - 1 - i) (by omega) (by omega)]
  simp only [getSample, MAX_SAMPLES, hhead]
  by_cases hneg : ((xs.length % 128 : Nat) : Int) - 1 - (i : Int) < 0
  · have h0 : (0 : Int) ≤ ((xs.length % 128 : Nat) : Int) - 1 - (i : Int) + ((128 : Nat) : Int) := by
      omega
    have hidx : (((xs.length % 128 : Nat) : Int) - 1 - (i : Int) + ((128 : Nat) : Int)).toNat
        = (xs.length - 1 - i) % 128 := by omega
    simp only [hneg, if_true, h0, hidx]
  · have h0 : (0 : Int) ≤ ((xs.length % 128 : Nat) : Int) - 1 - (i : Int) := by omega
    have hidx : (((xs.length % 128 : Nat) : Int) - 1 - (i : Int)).toNat
        = (xs.length - 1 - i) % 128 := by omega
    simp only [hneg, if_false, h0, if_true, hidx]


/-! ## Claims on the sample store -/

/-- C1: along any run of `addSample` calls from the empty store, `getSample 0`
after a call is the sample that call pushed, `count` is `min n 128` after `n`
pushes, it is at most 128 and it does not go down from one call to the next. -/
theorem C1_newest_first_count_saturates (xs : List Sample) (x : Sample) :
    getSample (addSample (pushAll emptyStore xs) x.rx x.tx) 0 = some x
    ∧ pushAll emptyStore (xs ++ [x]) = addSample (pushAll emptyStore xs) x.rx x.tx
    ∧ (pushAll emptyStore xs).count = min xs.length 128
    ∧ (addSample (pushAll emptyStore xs) x.rx x.tx).count = min (xs.length + 1) 128
    ∧ (addSample (pushAll emptyStore xs) x.rx x.tx).count ≤ 128
    ∧ (pushAll emptyStore xs).count
        ≤ (addSample (pushAll emptyStore xs) x.rx x.tx).count := by
  have h0 := storeInv_pushAll xs
  have h1 := storeInv_push xs _ x h0
  have hget := getSample_of_inv (xs ++ [x]) _ h1 0 (by simp)
  have hc0 := h0.count_eq
  have hc1 := h1.count_eq
  simp only [List.length_append, List.length_singleton] at hc1 hget
  refine ⟨?_, pushAll_snoc _ xs x, hc0, hc1, by omega, by omega⟩
  rw [hget]
  simp

/-- C2: after the pushes `xs` from the empty store, logical index `i` below
`min n 128` holds the sample pushed `i` pushes before the newest one; after 129
pushes index 127 holds the second sample pushed; index `count - 1` holds the oldest
retained sample; a push on a full store moves every retained sample one index up. -/
theorem C2_logical_index_is_age (xs : List Sample) (i : Nat)
    (hi : i < min xs.length 128) :
    (∃ x, xs[xs.length - 1 - i]? = some x
        ∧ getSample (pushAll emptyStore xs) i = some x)
    ∧ (xs.length = 129 →
        ∃ y, xs[1]? = some y ∧ getSample (pushAll emptyStore xs) 127 = some y)
    ∧ (∃ z, xs[xs.length - min xs.length 128]? = some z
        ∧ getSample (pushAll emptyStore xs) ((pushAll emptyStore xs).count - 1) = some z)
    ∧ (∀ x, 128 ≤ xs.length → i + 1 < 128 →
        getSample (pushAll emptyStore (xs ++ [x])) (i + 1)
          = getSample (pushAll emptyStore xs) i) := by
  have h0 := storeInv_pushAll xs
  have key : ∀ j, j < min xs.length 128 →
      ∃ x, xs[xs.length - 1 - j]? = some x
        ∧ getSample (pushAll emptyStore xs) j = some x := by
    intro j hj
    have hlt : xs.length - 1 - j < xs.length := by omega
    refine ⟨xs[xs.length - 1 - j], List.getElem?_eq_getElem hlt, ?_⟩
    rw [getSample_of_inv xs _ h0 j hj, List.getElem?_eq_getElem hlt]
  refine ⟨key i hi, ?_, ?_, ?_⟩
  · intro h129
    obtain ⟨y, hy1, hy2⟩ := key 127 (by omega)
    refine ⟨y, ?_, hy2⟩
    rw [← hy1, h129]
  · obtain ⟨z, hz1, hz2⟩ := key (min xs.length 128 - 1) (by omega)
    refine ⟨z, ?_, ?_⟩
    · rw [← hz1]
      congr 1
      omega
    · rw [h0.count_eq]
      exact hz2
  · intro x hfull hi1
    have h1 := storeInv_pushAll (xs ++ [x])
    rw [getSample_of_inv (xs ++ [x]) _ h1 (i + 1) (by simp; omega),
      getSample_of_inv xs _ h0 i hi]
    simp only [List.length_append, List.length_singleton]
    have hlt : xs.length - 1 - i < xs.length := by omega
    have he : xs.length + 1 - 1 - (i + 1) = xs.length - 1 - i := by omega
    rw [he, List.getElem?_append_left hlt]

/-- C2 on 129 pushes: index 127 holds the second sample pushed, `(1, 2)`. -/
theorem C2_logical_index_is_age_witness :
    127 < min run129.length 128
    ∧ getSample (pushAll emptyStore run129) 127 = some ⟨1, 2⟩ := by
  have hlen : run129.length = 129 := by simp [run129]
  have hi : 127 < min run129.length 128 := by rw [hlen]; decide
  refine ⟨hi, ?_⟩
  obtain ⟨y, hy1, hy2⟩ := (C2_logical_index_is_age run129 127 hi).2.1 hlen
  have h1 : run129[1]? = some ⟨1, 2⟩ := by simp [run129]
  rw [hy2, ← hy1, h1]

/-! ## Lemmas on the LED duty and the button handler -/

theorem fullScale_init :
    fullScale initState.yScaleRX initState.yScaleTX = 1000000 := by
  simp [fullScale, initState]

theorem sub32_mod_left (a b : Nat) : sub32 (a % U32) b = sub32 a b := by
  simp [sub32]

theorem sub32_mod_right (a b : Nat) : sub32 a (b % U32) = sub32 a b := by
  simp [sub32]

theorem fromNat_succ_mod (m : DisplayMode) :
    DisplayMode.fromNat ((m.toNat + 1) % 3) = cycleNext m := by
  cases m <;> rfl

theorem cycleNext_thrice (m : DisplayMode) : cycleNext (cycleNext (cycleNext m)) = m := by
  cases m <;> rfl

theorem buttonISR_accept (st : State) (now : Nat) (h : 250 < sub32 now st.last) :
    buttonISR st now
      = { st with currentMode := cycleNext st.currentMode, last := now % U32 } := by
  simp [buttonISR, sub32_mod_left, h, fromNat_succ_mod]

/-! ## Lemmas on the auto-scale -/

theorem scaleStep_scenario : scaleStep 1 2000000 = 121 / 100 := by
  norm_num [scaleStep, scaleTarget, yAlpha, yMin, yPad]

/-! ## Lemmas on the peak scan -/

theorem storeWF_empty : StoreWF emptyStore :=
  ⟨by simp [emptyStore, MAX_SAMPLES], by simp [emptyStore], by simp [emptyStore]⟩

theorem storeWF_addSample (s : Store) (rx tx : Nat) (h : StoreWF s) :
    StoreWF (addSample s rx tx) := by
  obtain ⟨hlen, hhead, hcount⟩ := h
  refine ⟨by simp [addSample, hlen], ?_, ?_⟩
  · simp only [addSample, MAX_SAMPLES]
    exact Nat.mod_lt _ (by decide)
  · simp only [addSample, MAX_SAMPLES]
    split <;> omega

theorem getSample_some (s : Store) (h : StoreWF s) (i : Nat) (hi : i < s.count) :
    ∃ x, getSample s i = some x := by
  obtain ⟨hlen, hhead, hcount⟩ := h
  simp only [getSample, MAX_SAMPLES]
  by_cases hneg : (s.head : Int) - 1 - (i : Int) < 0
  · have h0 : (0 : Int) ≤ (s.head : Int) - 1 - (i : Int) + ((128 : Nat) : Int) := by omega
    have hlt : ((s.head : Int) - 1 - (i : Int) + ((128 : Nat) : Int)).toNat < s.ring.length := by
      omega
    simp only [hneg, if_true, h0]
    exact ⟨_, List.getElem?_eq_getElem hlt⟩
  · have h0 : (0 : Int) ≤ (s.head : Int) - 1 - (i : Int) := by omega
    have hlt : ((s.head : Int) - 1 - (i : Int)).toNat < s.ring.length := by omega
    simp only [hneg, if_false, h0, if_true]
    exact ⟨_, List.getElem?_eq_getElem hlt⟩

theorem scan_some (s : Store) (l : List Nat) (hl : ∀ i ∈ l, ∃ x, getSample s i = some x)
    (init : Nat × Nat) :
    ∃ a b, l.foldlM
      (fun (p : Nat × Nat) i =>
        (getSample s i).map fun x => (max p.1 x.rx, max p.2 x.tx)) init = some (a, b) := by
  induction l generalizing init with
  | nil => exact ⟨init.1, init.2, rfl⟩
  | cons i l ih =>
    obtain ⟨x, hx⟩ := hl i (List.mem_cons_self _ _)
    obtain ⟨a, b, hab⟩ := ih (fun j hj => hl j (List.mem_cons_of_mem _ hj))
      (max init.1 x.rx, max init.2 x.tx)
    refine ⟨a, b, ?_⟩
    rw [List.foldlM_cons, hx]
    simpa using hab

theorem peaks_some (s : Store) (h : StoreWF s) : ∃ a b, peaks s = some (a, b) := by
  unfold peaks
  apply scan_some
  intro i hi
  exact getSample_some s h i (List.mem_range.mp hi)

set_option maxRecDepth 4000 in
theorem peaks_first_push :
    peaks (addSample emptyStore 2000000 100000) = some (2000000, 100000) := by
  decide

/-! ## Lemmas on the main loop -/

theorem loop_accept_graph (st : State) (p : Payload)
    (hlen : p.clients.length = p.macs.length)
    (hm : st.currentMode = DisplayMode.MODE_GRAPH) (a b : Nat)
    (hab : peaks (addSample st.store p.rx p.tx) = some (a, b)) :
    loop st (Datagram.decoded p) = some
      { st with
        clients := storeClients st.clients p.clients p.macs (min p.clients.length MAX_CLIENTS)
        store := addSample st.store p.rx p.tx
        ch := pwm_set_duty (ledDuty p.rx p.tx (fullScale st.yScaleRX st.yScaleTX)) st.ch
        yScaleRX := scaleStep st.yScaleRX a
        yScaleTX := scaleStep st.yScaleTX b } := by
  simp only [loop, hlen, ne_eq, not_true_eq_false, if_false, updateLED, hm, drawDual, hab]

theorem loop_accept_other (st : State) (p : Payload)
    (hlen : p.clients.length = p.macs.length)
    (hm : st.currentMode ≠ DisplayMode.MODE_GRAPH) :
    loop st (Datagram.decoded p) = some
      { st with
        clients := storeClients st.clients p.clients p.macs (min p.clients.length MAX_CLIENTS)
        store := addSample st.store p.rx p.tx
        ch := pwm_set_duty (ledDuty p.rx p.tx (fullScale st.yScaleRX st.yScaleTX)) st.ch } := by
  cases hc : st.currentMode with
  | MODE_GRAPH => exact absurd hc hm
  | MODE_CLIENTS =>
    simp only [loop, hlen, ne_eq, not_true_eq_false, if_false, updateLED, hc]
  | MODE_INFO =>
    simp only [loop, hlen, ne_eq, not_true_eq_false, if_false, updateLED, hc]

theorem loop_graph_fields (st : State) (p : Payload)
    (hlen : p.clients.length = p.macs.length)
    (hm : st.currentMode = DisplayMode.MODE_GRAPH) (a b : Nat)
    (hab : peaks (addSample st.store p.rx p.tx) = some (a, b)) :
    ∃ st', loop st (Datagram.decoded p) = some st'
      ∧ st'.store = addSample st.store p.rx p.tx
      ∧ st'.currentMode = DisplayMode.MODE_GRAPH
      ∧ st'.yScaleRX = scaleStep st.yScaleRX a
      ∧ st'.yScaleTX = scaleStep st.yScaleTX b
      ∧ st'.ch = pwm_set_duty (ledDuty p.rx p.tx (fullScale st.yScaleRX st.yScaleTX)) st.ch := by
  rw [loop_accept_graph st p hlen hm a b hab]
  exact ⟨_, rfl, rfl, hm, rfl, rfl, rfl⟩

theorem storeWF_of_inv (xs : List Sample) (s : Store) (h : StoreInv xs s) : StoreWF s := by
  obtain ⟨hlen, hhead, hcount, _⟩ := h
  refine ⟨hlen, ?_, ?_⟩
  · rw [hhead]
    exact Nat.mod_lt _ (by decide)
  · rw [hcount]
    exact Nat.min_le_right _ _

theorem loop_accept_ch (st : State) (p : Payload) (hwf : StoreWF st.store)
    (hlen : p.clients.length = p.macs.length) :
    ∃ st', loop st (Datagram.decoded p) = some st'
      ∧ st'.ch = pwm_set_duty (ledDuty p.rx p.tx (fullScale st.yScaleRX st.yScaleTX)) st.ch := by
  obtain ⟨a, b, hab⟩ := peaks_some _ (storeWF_addSample st.store p.rx p.tx hwf)
  by_cases hm : st.currentMode = DisplayMode.MODE_GRAPH
  · rw [loop_accept_graph st p hlen hm a b hab]
    exact ⟨_, rfl, rfl⟩
  · rw [loop_accept_other st p hlen hm]
    exact ⟨_, rfl, rfl⟩

theorem scan_const (s : Store) (c : Sample) (l : List Nat)
    (hl : ∀ i ∈ l, getSample s i = some c) (init : Nat × Nat) :
    l.foldlM
      (fun (p : Nat × Nat) i =>
        (getSample s i).map fun x => (max p.1 x.rx, max p.2 x.tx)) init
      = some (if l = [] then init else (max init.1 c.rx, max init.2 c.tx)) := by
  induction l generalizing init with
  | nil => rfl
  | cons i l ih =>
    have hi := hl i (List.mem_cons_self _ _)
    rw [List.foldlM_cons, hi]
    simp only [Option.map_some', Option.bind_eq_bind, Option.some_bind]
    rw [ih (fun j hj => hl j (List.mem_cons_of_mem _ hj))]
    by_cases hnil : l = []
    · simp [hnil]
    · simp [hnil, max_assoc]

theorem peaks_const (xs : List Sample) (s : Store) (c : Sample) (h : StoreInv xs s)
    (hc : ∀ x ∈ xs, x = c) (hne : xs ≠ []) :
    peaks s = some (max 1 c.rx, max 1 c.tx) := by
  have hpos : 0 < xs.length := List.length_pos.mpr hne
  have hcount : s.count ≠ 0 := by
    rw [h.count_eq]
    omega
  unfold peaks
  rw [scan_const s c]
  · simp [hcount]
  · intro i hi
    have hi1 : i < min xs.length 128 := by
      rw [← h.count_eq]
      exact List.mem_range.mp hi
    have hlt : xs.length - 1 - i < xs.length := by omega
    rw [getSample_of_inv xs s h i hi1, List.getElem?_eq_getElem hlt]
    exact congrArg some (hc _ (List.getElem_mem hlt))

theorem steady_run (q : Payload) (hq : q.clients.length = q.macs.length) (k : Nat) :
    ∃ st, runLoop initState (List.replicate k (Datagram.decoded q)) = some st
      ∧ st.store = pushAll emptyStore (List.replicate k ⟨q.rx, q.tx⟩)
      ∧ st.currentMode = DisplayMode.MODE_GRAPH
      ∧ st.yScaleRX = scaleRun 1 (max 1 q.rx) k
      ∧ st.yScaleTX = scaleRun 1 (max 1 q.tx) k := by
  induction k with
  | zero => exact ⟨initState, rfl, rfl, rfl, rfl, rfl⟩
  | succ k ih =>
    obtain ⟨st, hrun, hstore, hmode, hrx, htx⟩ := ih
    have hpk : peaks (addSample st.store q.rx q.tx) = some (max 1 q.rx, max 1 q.tx) := by
      rw [hstore]
      have hinv := storeInv_push _ _ ⟨q.rx, q.tx⟩
        (storeInv_pushAll (List.replicate k ⟨q.rx, q.tx⟩))
      refine peaks_const _ _ ⟨q.rx, q.tx⟩ hinv ?_ (by simp)
      intro x hx
      rcases List.mem_append.mp hx with hx | hx
      · exact List.eq_of_mem_replicate hx
      · simpa using hx
    obtain ⟨st', hloop, hs', hm', hrx', htx', _⟩ := loop_graph_fields st q hq hmode _ _ hpk
    refine ⟨st', ?_, ?_, hm', ?_, ?_⟩
    · rw [List.replicate_succ', runLoop, List.foldlM_append, ← runLoop, hrun]
      simpa using hloop
    · rw [hs', List.replicate_succ', pushAll_snoc, hstore]
    · rw [hrx', hrx, scaleRun]
    · rw [htx', htx, scaleRun]

theorem ledDuty_exact (rx tx full : Nat) (h1 : rx + tx < full)
    (h2 : (rx + tx) * 255 < U32) : ledDuty rx tx full = (rx + tx) * 255 / full := by
  have hs : rx + tx < U32 := by omega
  have hq : (rx + tx) * 255 / full < 255 := by
    rw [Nat.div_lt_iff_lt_mul (show 0 < full by omega)]
    omega
  have hn : ¬ full ≤ rx + tx := by omega
  simp only [ledDuty, Nat.mod_eq_of_lt hs, Nat.mod_eq_of_lt h2, ge_iff_le, hn, if_false]
  exact Nat.mod_eq_of_lt (by omega)

theorem ledDuty_saturated (rx tx full : Nat) (h1 : rx + tx < U32) (h2 : full ≤ rx + tx) :
    ledDuty rx tx full = 255 := by
  simp [ledDuty, Nat.mod_eq_of_lt h1, h2]

/-! ## Claims on the LED duty -/

/-- C3: eight documents at 20 Mbps from start-up bring the full scale to 17732717;
for the next one, `rx = 17000000`, `tx = 0`, the sum is below the full scale and the
exact quotient `(rx + tx) * 255 / full` is 244, while the 32-bit product wraps and
`updateLED` computes duty 2 and writes 32 to the duty register. -/
theorem C3_product_wraps_below_full :
    ∃ st, runLoop initState (List.replicate 8 (Datagram.decoded steady20)) = some st
      ∧ fullScale st.yScaleRX st.yScaleTX = 17732717
      ∧ 17000000 + 0 < 17732717
      ∧ (17000000 + 0) * 255 / 17732717 = 244
      ∧ ledDuty 17000000 0 17732717 = 2
      ∧ ∃ st', loop st (Datagram.decoded then17) = some st'
          ∧ st'.ch = { sig_out_en := 1, duty := 32, duty_start := 1 } := by
  obtain ⟨st, hrun, hstore, hmode, hrx, htx⟩ := steady_run steady20 rfl 8
  have hfull : fullScale st.yScaleRX st.yScaleTX = 17732717 := by
    rw [hrx, htx]
    simp only [fullScale, steady20]
    norm_num [scaleRun, scaleStep, scaleTarget, yAlpha, yMin, yPad]
    rw [Nat.floor_eq_iff (by norm_num)]
    constructor <;> norm_num
  have hwf : StoreWF st.store := by
    rw [hstore]
    exact storeWF_of_inv _ _ (storeInv_pushAll _)
  obtain ⟨st', hloop, hch⟩ := loop_accept_ch st then17 hwf rfl
  refine ⟨st, hrun, hfull, by decide, by decide, by decide, st', hloop, ?_⟩
  have hd : ledDuty then17.rx then17.tx 17732717 = 2 := by decide
  rw [hch, hfull, hd]
  rfl

/-- C4: for the first document after start-up, `rx = 4294967295`, `tx = 1`, the
full scale is 1000000 and the true sum 4294967296 is above it, while the 32-bit sum
wraps to 0 and `updateLED` computes duty 0 and leaves the output off. -/
theorem C4_sum_wraps_above_full :
    fullScale initState.yScaleRX initState.yScaleTX = 1000000
    ∧ 1000000 ≤ 4294967295 + 1
    ∧ (4294967295 + 1) % U32 = 0
    ∧ ledDuty 4294967295 1 1000000 = 0
    ∧ ∃ st', loop initState (Datagram.decoded burst) = some st'
        ∧ st'.ch = { sig_out_en := 0, duty := 0, duty_start := 0 } := by
  obtain ⟨st', hloop, hch⟩ := loop_accept_ch initState burst storeWF_empty rfl
  refine ⟨fullScale_init, by decide, by decide, by decide, st', hloop, ?_⟩
  rw [hch, fullScale_init]
  decide

/-- C8: `pwm_set_duty 0` clears output-enable and duty-start and leaves the duty
register alone; `pwm_set_duty d` for `d` in 1..255 sets output-enable, writes
`d * 16` and sets duty-start; `updateLED` at `rx = tx = 0` with a positive full
scale computes duty 0 and leaves the output off. -/
theorem C8_zero_duty_disables (ch : LedcChannel) (d : Nat) (st : State)
    (hd1 : 1 ≤ d) (hd2 : d ≤ 255)
    (hfull : 0 < fullScale st.yScaleRX st.yScaleTX) :
    pwm_set_duty 0 ch = { sig_out_en := 0, duty := ch.duty, duty_start := 0 }
    ∧ pwm_set_duty d ch = { sig_out_en := 1, duty := d * 16, duty_start := 1 }
    ∧ (∀ full, 0 < full → ledDuty 0 0 full = 0)
    ∧ ledDuty 0 0 (fullScale st.yScaleRX st.yScaleTX) = 0
    ∧ (updateLED st 0 0).ch
        = { sig_out_en := 0, duty := st.ch.duty, duty_start := 0 }
    ∧ updateLED st 0 0
        = { st with ch := { sig_out_en := 0, duty := st.ch.duty, duty_start := 0 } } := by
  have hz : ∀ full, 0 < full → ledDuty 0 0 full = 0 := by
    intro full hf
    have : ¬ full = 0 := by omega
    simp [ledDuty, this]
  have hd : d ≠ 0 := by omega
  refine ⟨by simp [pwm_set_duty], ?_, hz, hz _ hfull, ?_, ?_⟩
  · simp [pwm_set_duty, hd, Nat.shiftLeft_eq]
  · simp [updateLED, hz _ hfull, pwm_set_duty]
  · simp [updateLED, hz _ hfull, pwm_set_duty]

/-- C8 at duty 200 on the start-up statics: the duty register gets 3200, and
`updateLED 0 0` leaves the output off. -/
theorem C8_zero_duty_disables_witness :
    pwm_set_duty 200 initState.ch = { sig_out_en := 1, duty := 3200, duty_start := 1 }
    ∧ (updateLED initState 0 0).ch = { sig_out_en := 0, duty := 0, duty_start := 0 } := by
  have h := C8_zero_duty_disables initState.ch 200 initState (by decide) (by decide)
    (by rw [fullScale_init]; decide)
  exact ⟨h.2.1, h.2.2.2.2.1⟩

/-! ## Claims on the mode selector -/

/-- C5 as the specification words it fails: an edge exactly 250 ms after the last
accepted one (last = 1000, now = 1250) leaves the mode at GRAPH. -/
theorem C5_edge_at_250_dropped :
    250 ≤ sub32 1250 pressedState.last
    ∧ 1250 - pressedState.last = 250
    ∧ buttonISR pressedState 1250 = pressedState
    ∧ (buttonISR pressedState 1250).currentMode ≠ cycleNext pressedState.currentMode := by
  decide

/-- C5, amended: an edge whose 32-bit elapsed time `now - last` is above 250 ms is
accepted, moves the mode one step along GRAPH → CLIENTS → INFO → GRAPH and stores
`now`; three such edges in a row bring the mode back to where it started. -/
theorem C5_mode_cycle (st : State) (t1 t2 t3 : Nat)
    (h1 : 250 < sub32 t1 st.last) (h2 : 250 < sub32 t2 t1) (h3 : 250 < sub32 t3 t2) :
    (buttonISR st t1).currentMode = cycleNext st.currentMode
    ∧ (buttonISR st t1).last = t1 % U32
    ∧ (buttonISR (buttonISR st t1) t2).currentMode = cycleNext (cycleNext st.currentMode)
    ∧ (buttonISR (buttonISR st t1) t2).last = t2 % U32
    ∧ (buttonISR (buttonISR (buttonISR st t1) t2) t3).currentMode = st.currentMode
    ∧ (buttonISR (buttonISR (buttonISR st t1) t2) t3).last = t3 % U32 := by
  have e1 := buttonISR_accept st t1 h1
  have e2 := buttonISR_accept (buttonISR st t1) t2 (by rw [e1]; simpa [sub32_mod_right] using h2)
  have e3 := buttonISR_accept (buttonISR (buttonISR st t1) t2) t3
    (by rw [e2]; simpa [sub32_mod_right] using h3)
  refine ⟨by rw [e1], by rw [e1], by rw [e2, e1], by rw [e2], ?_, by rw [e3]⟩
  rw [e3, e2, e1]
  exact cycleNext_thrice st.currentMode

/-- C5, amended, on edges at 1251, 1502 and 1753 ms after an accepted edge at
1000 ms: the mode is back at GRAPH. -/
theorem C5_mode_cycle_witness :
    (buttonISR pressedState 1251).currentMode = DisplayMode.MODE_CLIENTS
    ∧ (buttonISR (buttonISR (buttonISR pressedState 1251) 1502) 1753).currentMode
        = DisplayMode.MODE_GRAPH := by
  have h := C5_mode_cycle pressedState 1251 1502 1753 (by decide) (by decide) (by decide)
  exact ⟨h.1, h.2.2.2.2.1⟩

/-- C6: an edge whose 32-bit elapsed time `now - last` is below 250 ms changes
nothing: the mode and the stored time stay as they were. -/
theorem C6_edge_inside_window_dropped (st : State) (now : Nat)
    (h : sub32 now st.last < 250) :
    buttonISR st now = st
    ∧ (buttonISR st now).currentMode = st.currentMode
    ∧ (buttonISR st now).last = st.last := by
  have hn : ¬ 250 < sub32 now st.last := by omega
  have e : buttonISR st now = st := by
    simp [buttonISR, sub32_mod_left, hn]
  exact ⟨e, by rw [e], by rw [e]⟩

/-- C6 on an edge 100 ms after an accepted edge at 1000 ms. -/
theorem C6_edge_inside_window_dropped_witness :
    sub32 1100 pressedState.last < 250
    ∧ buttonISR pressedState 1100 = pressedState :=
  ⟨by decide, (C6_edge_inside_window_dropped pressedState 1100 (by decide)).1⟩

/-! ## Claims on the main loop -/

/-- C7: a document whose address list and hardware-address list differ in length
leaves the roster, the sample store and both scales as they were; the whole of the
statics is unchanged. -/
theorem C7_mismatch_rejected (st : State) (p : Payload)
    (h : p.clients.length ≠ p.macs.length) :
    ∃ st', loop st (Datagram.decoded p) = some st'
      ∧ st'.clients = st.clients
      ∧ st'.store = st.store
      ∧ st'.yScaleRX = st.yScaleRX
      ∧ st'.yScaleTX = st.yScaleTX
      ∧ st' = st := by
  refine ⟨st, ?_, rfl, rfl, rfl, rfl, rfl⟩
  simp [loop, h]

/-- C7 on three addresses and two hardware addresses at the start-up statics. -/
theorem C7_mismatch_rejected_witness :
    mismatched.clients.length = 3 ∧ mismatched.macs.length = 2
    ∧ ∃ st', loop initState (Datagram.decoded mismatched) = some st'
      ∧ st'.clients = initState.clients
      ∧ st'.store = initState.store
      ∧ st'.yScaleRX = initState.yScaleRX
      ∧ st'.yScaleTX = initState.yScaleTX
      ∧ st' = initState :=
  ⟨rfl, rfl, C7_mismatch_rejected initState mismatched (by decide)⟩

/-! ## Claims on the auto-scale -/

/-- C10 as the specification words it fails: in CLIENTS mode an accepted document
is stored and its peak is 2000000, yet the RX scale stays at 1.0, where one
smoothing update would have made it 1.21. -/
theorem C10_no_update_in_clients_mode :
    ∃ st', loop clientsState (Datagram.decoded plain) = some st'
      ∧ peaks st'.store = some (2000000, 100000)
      ∧ st'.yScaleRX = clientsState.yScaleRX
      ∧ st'.yScaleRX ≠ scaleStep clientsState.yScaleRX 2000000 := by
  refine ⟨_, rfl, peaks_first_push, rfl, ?_⟩
  show (1 : ℚ) ≠ scaleStep 1 2000000
  rw [scaleStep_scenario]
  norm_num

/-- C10, amended: an accepted document is stored, and when the mode is GRAPH each of
the two scales gets one smoothing update against the peak scanned from the store
with the new sample in it; when the mode is CLIENTS or INFO both scales stay as they
were. -/
theorem C10_scale_update_only_in_graph (st : State) (p : Payload)
    (hwf : StoreWF st.store) (hlen : p.clients.length = p.macs.length) :
    ∃ st' peakRX peakTX, loop st (Datagram.decoded p) = some st'
      ∧ st'.store = addSample st.store p.rx p.tx
      ∧ peaks st'.store = some (peakRX, peakTX)
      ∧ (st.currentMode = DisplayMode.MODE_GRAPH →
          st'.yScaleRX = scaleStep st.yScaleRX peakRX
          ∧ st'.yScaleTX = scaleStep st.yScaleTX peakTX)
      ∧ (st.currentMode ≠ DisplayMode.MODE_GRAPH →
          st'.yScaleRX = st.yScaleRX ∧ st'.yScaleTX = st.yScaleTX) := by
  obtain ⟨a, b, hab⟩ := peaks_some _ (storeWF_addSample st.store p.rx p.tx hwf)
  by_cases hm : st.currentMode = DisplayMode.MODE_GRAPH
  · rw [loop_accept_graph st p hlen hm a b hab]
    exact ⟨_, a, b, rfl, rfl, hab, fun _ => ⟨rfl, rfl⟩, fun h => absurd hm h⟩
  · rw [loop_accept_other st p hlen hm]
    exact ⟨_, a, b, rfl, rfl, hab, fun h => absurd h hm, fun _ => ⟨rfl, rfl⟩⟩

/-- C10, amended, on the first document at start-up (GRAPH mode, 2 Mbps down): the
RX scale goes from 1.0 to 1.21. -/
theorem C10_scale_update_only_in_graph_witness :
    StoreWF initState.store
    ∧ plain.clients.length = plain.macs.length
    ∧ ∃ st', loop initState (Datagram.decoded plain) = some st'
      ∧ st'.yScaleRX = 121 / 100 := by
  refine ⟨storeWF_empty, rfl, ?_⟩
  obtain ⟨st', a, b, hl, hs, hp, hg, _⟩ :=
    C10_scale_update_only_in_graph initState plain storeWF_empty rfl
  refine ⟨st', hl, ?_⟩
  have hpk : peaks st'.store = some (2000000, 100000) := by
    rw [hs]
    exact peaks_first_push
  rw [hp] at hpk
  have ha : a = 2000000 := by
    have := congrArg (fun o => o.map Prod.fst) hpk
    simpa using this
  rw [(hg rfl).1, ha]
  exact scaleStep_scenario

end NetworkMonitor
